import Mathlib

/-!
# Verification of the breadcrumbs logging library (src/src/lib.rs)

Shallow embedding of the `breadcrumbs` crate: a no_std log-capture library
holding a global ordered sequence of log entries (`LOGS`) and an optional
observer (`LOG_LISTENER`), each behind its own spin mutex.

Modelling conventions:
* The global mutable state (the `LOGS` vector, the `LOG_LISTENER` slot) is
  passed explicitly as a `Store` value; the observer (`Box<dyn LogListener>`)
  is identified by a `Nat` tag and each invocation of `on_log` is recorded,
  with its argument, in the `notes` event list of the store.
* A Rust panic (the `.unwrap()` in `Log::remove`) is modelled by returning
  `none`.
* Rust `String` is Lean `String`; `Vec<T>` is `List T`; field-by-field
  `derive(PartialEq)` equality is Lean structural equality.
-/

/-- Rust `enum LogLevel` (lib.rs lines 29-35), five variants in declaration
order Verbose, Info, Warn, Error, Critical. -/
inductive LogLevel : Type
| Verbose : LogLevel
| Info : LogLevel
| Warn : LogLevel
| Error : LogLevel
| Critical : LogLevel
deriving DecidableEq, Repr

/-- Rust `impl Default for LogLevel` (lib.rs lines 37-41): the default level
is `Info`. -/
def LogLevel.default : LogLevel := LogLevel.Info

/-- The severity rank given by the variant declaration order, which is what
Rust `derive(PartialOrd, Ord)` on `LogLevel` uses: Verbose < Info < Warn <
Error < Critical. -/
def LogLevel.rank : LogLevel → Nat
| LogLevel.Verbose => 0
| LogLevel.Info => 1
| LogLevel.Warn => 2
| LogLevel.Error => 3
| LogLevel.Critical => 4

/-- Rust `LogLevel::is_at_least` (lib.rs lines 64-72), translated clause by
clause: it matches on the threshold `level` and compares `self` against the
variants below it. -/
def LogLevel.is_at_least (self : LogLevel) (level : LogLevel) : Bool :=
  match level with
  | LogLevel.Verbose => true
  | LogLevel.Info => self ≠ LogLevel.Verbose
  | LogLevel.Warn => self ≠ LogLevel.Verbose && self ≠ LogLevel.Info
  | LogLevel.Error =>
      self ≠ LogLevel.Verbose && self ≠ LogLevel.Info && self ≠ LogLevel.Warn
  | LogLevel.Critical => self = LogLevel.Critical

/-- Rust `impl Display for LogLevel` (lib.rs lines 43-54): the canonical
name of each level. -/
def LogLevel.displayStr : LogLevel → String
| LogLevel.Verbose => "Verbose"
| LogLevel.Info => "Info"
| LogLevel.Warn => "Warn"
| LogLevel.Error => "Error"
| LogLevel.Critical => "Critical"

/-- Rust `LogLevel::from_str` (lib.rs lines 74-83): the five canonical names
map to their level, everything else falls back to `Info`. -/
def LogLevel.from_str (level : String) : LogLevel :=
  if level = "Verbose" then LogLevel.Verbose
  else if level = "Info" then LogLevel.Info
  else if level = "Warn" then LogLevel.Warn
  else if level = "Error" then LogLevel.Error
  else if level = "Critical" then LogLevel.Critical
  else LogLevel.Info

/-- Rust `struct Log` (lib.rs lines 93-98): channel, level, message.
`derive(PartialEq, Eq)` is structural equality, matched by the derived
`DecidableEq`. -/
structure Log : Type where
  channel : String
  level : LogLevel
  message : String
deriving DecidableEq, Repr

/-- Rust `Log::new` (lib.rs lines 112-118): plain construction, no
validation. -/
def Log.new (channel : String) (level : LogLevel) (message : String) : Log :=
  { channel := channel, level := level, message := message }

/-- Rust `impl Display for Log` (lib.rs lines 100-108):
`[channel/level] message` when the channel is non-empty, else
`[level] message`. -/
def Log.display (self : Log) : String :=
  if self.channel ≠ "" then
    "[" ++ self.channel ++ "/" ++ self.level.displayStr ++ "] " ++ self.message
  else
    "[" ++ self.level.displayStr ++ "] " ++ self.message

/-- Rust `Iterator::position` as used in `Log::remove` (lib.rs line 138):
index of the first element satisfying the predicate. -/
def positionOf (p : Log → Bool) : List Log → Option Nat
| [] => none
| a :: rest => if p a then some 0 else (positionOf p rest).map (· + 1)

/-- Rust `Log::remove` (lib.rs lines 136-140), with the global `LOGS` vector
passed explicitly: find the position of the first entry equal to `self` and
remove it (`Vec::remove` shifts the tail left, i.e. `List.eraseIdx`).  The
`.unwrap()` panic on a missing entry is modelled by `none`. -/
def Log.remove (self : Log) (logs : List Log) : Option (List Log) :=
  match positionOf (fun log => log = self) logs with
  | some index => some (logs.eraseIdx index)
  | none => none

/-- The global mutable state of the crate (lib.rs lines 148-151): the `LOGS`
vector and the `LOG_LISTENER` slot, plus the `notes` trace recording each
`on_log` invocation (listener tag paired with the entry it received). -/
structure Store : Type where
  logs : List Log
  listener : Option Nat
  notes : List (Nat × Log)
deriving DecidableEq, Repr

/-- The entry built at the top of `log` (lib.rs line 231):
`Log::new(channel.unwrap_or(""), level.unwrap_or(LogLevel::Info), message)`. -/
def builtLog (level : Option LogLevel) (channel : Option String)
    (message : String) : Log :=
  Log.new (channel.getD "") (level.getD LogLevel.Info) message

/-- First critical section of `log` (lib.rs line 232), under the `LOGS`
lock: push the entry onto the vector. -/
def logAppendSec (level : Option LogLevel) (channel : Option String)
    (message : String) : Store → Store :=
  fun s => { s with logs := s.logs ++ [builtLog level channel message] }

/-- Second critical section of `log` (lib.rs lines 233-235), under the
`LOG_LISTENER` lock: if a listener is installed, invoke it with a freshly
built copy `Log::new(log.channel, log.level, log.message)` of the entry. -/
def logNotifySec (level : Option LogLevel) (channel : Option String)
    (message : String) : Store → Store :=
  fun s =>
    match s.listener with
    | some t =>
        { s with notes := s.notes ++
            [(t, Log.new (builtLog level channel message).channel
                  (builtLog level channel message).level
                  (builtLog level channel message).message)] }
    | none => s

/-- Rust `log` (lib.rs lines 230-236): build the entry, push it under the
`LOGS` lock, then notify the listener (if any) under the `LOG_LISTENER`
lock.  The two locks are acquired one after the other, never jointly. -/
def log (level : Option LogLevel) (channel : Option String)
    (message : String) (s : Store) : Store :=
  logNotifySec level channel message (logAppendSec level channel message s)

/-- Critical section shared by `init` and `init_with_listener` (lib.rs
lines 160 and 179), under the `LOGS` lock: clear the vector. -/
def initClearSec : Store → Store := fun s => { s with logs := [] }

/-- Second critical section of `init` (lib.rs line 161), under the
`LOG_LISTENER` lock: clear the listener slot. -/
def initSetNoneSec : Store → Store := fun s => { s with listener := none }

/-- Second critical section of `init_with_listener` (lib.rs line 180),
under the `LOG_LISTENER` lock: install the given listener. -/
def initSetSomeSec (t : Nat) : Store → Store :=
  fun s => { s with listener := some t }

/-- Rust `init` (lib.rs lines 159-162): clear the logs, then clear the
listener slot. -/
def init (s : Store) : Store := initSetNoneSec (initClearSec s)

/-- Rust `init_with_listener` (lib.rs lines 178-181): clear the logs, then
install the listener. -/
def init_with_listener (t : Nat) (s : Store) : Store :=
  initSetSomeSec t (initClearSec s)

/-- Rust `struct Traceback(pub Vec<Log>)` (lib.rs line 245). -/
structure Traceback : Type where
  logs : List Log
deriving DecidableEq, Repr

/-- Rust `Traceback::to_string` (lib.rs lines 254-260): start from the
empty string and append `format!("{}\n", log)` for each entry in order. -/
def Traceback.to_string (self : Traceback) : String :=
  self.logs.foldl (fun traceback lg => traceback ++ (lg.display ++ "\n")) ""

/-- The filter applied to each stored entry by `get_logs_traceback`
(lib.rs lines 278-283): an entry is kept when it is not skipped by either
`continue` guard, i.e. when it passes the level test (if a minimum level is
given) and the channel-membership test (if a channel list is given). -/
def keep (min_level : Option LogLevel) (channels : Option (List String))
    (lg : Log) : Bool :=
  (match min_level with
   | some m => lg.level.is_at_least m
   | none => true)
  &&
  (match channels with
   | some cs => cs.contains lg.channel
   | none => true)

/-- Rust `get_logs_traceback` (lib.rs lines 275-287), with the global
`LOGS` vector passed explicitly: iterate over the stored entries in order,
skipping those rejected by either filter, and wrap the survivors in a
`Traceback`. -/
def get_logs_traceback (min_level : Option LogLevel)
    (channels : Option (List String)) (stored : List Log) : Traceback :=
  { logs := stored.filter (keep min_level channels) }

/-- Spec-side predicate, written from the spec's words for the query
contract: the entry's severity `is_at_least` the threshold when one is
given, and its channel is a member of `channels` when a channel set is
given; an absent filter imposes no constraint. -/
def querySpecKeeps (min_level : Option LogLevel)
    (channels : Option (List String)) (entry : Log) : Prop :=
  (∀ m, min_level = some m → entry.level.is_at_least m = true) ∧
  (∀ cs, channels = some cs → entry.channel ∈ cs)

/-- Run a list of log calls in order from a store (a single-threaded caller
issuing successive `log` calls). -/
def runLogs (inputs : List (Option LogLevel × Option String × String))
    (s : Store) : Store :=
  inputs.foldl (fun st i => log i.1 i.2.1 i.2.2 st) s

/-- Run a list of critical sections in order. -/
def runAll (sections : List (Store → Store)) (s : Store) : Store :=
  sections.foldl (fun st a => a st) s

/-- The two critical sections of one `log` call, in program order. -/
def logSections (level : Option LogLevel) (channel : Option String)
    (message : String) : List (Store → Store) :=
  [logAppendSec level channel message, logNotifySec level channel message]

/-- The two critical sections of one `init_with_listener` call, in program
order. -/
def initWithListenerSections (t : Nat) : List (Store → Store) :=
  [initClearSec, initSetSomeSec t]

/-- Interleaved execution of two threads, each a list of critical sections
run in program order.  The schedule says which thread's next critical
section runs at each step (the spin mutexes make each critical section
atomic, but nothing orders sections of different threads).  A scheduled
thread with no section left simply skips. -/
def runSched : List Bool → List (Store → Store) → List (Store → Store) →
    Store → Store
| [], _, _, s => s
| true :: r, a :: as, bs, s => runSched r as bs (a s)
| true :: r, [], bs, s => runSched r [] bs s
| false :: r, as, b :: bs, s => runSched r as bs (b s)
| false :: r, as, [], s => runSched r as [] s

/-- All schedules (Bool lists) of length exactly `n`. -/
def allSchedsExact : Nat → List (List Bool)
| 0 => [[]]
| n + 1 =>
    (allSchedsExact n).map (fun sc => true :: sc) ++
    (allSchedsExact n).map (fun sc => false :: sc)

/-- All schedules of length at most `n` (covering every partial
interleaving of two 2-section threads when `n = 4`). -/
def allScheds : Nat → List (List Bool)
| 0 => [[]]
| n + 1 => allScheds n ++ allSchedsExact (n + 1)

/-- Spec-side rendering, written from the spec's words: the concatenation,
in the sequence's order, of each entry's canonical display form followed by
a newline; the empty sequence renders to the empty string. -/
def renderSpec : List Log → String
| [] => ""
| lg :: rest => (lg.display ++ "\n") ++ renderSpec rest

/-- Concrete scenario for the lock-structure analysis: one thread runs
`log(Some(Info), Some("c"), "m")`. -/
def logThreadSecs : List (Store → Store) :=
  logSections (some LogLevel.Info) (some "c") "m"

/-- Concrete scenario for the lock-structure analysis: the other thread
runs `init_with_listener` installing listener 7. -/
def initThreadSecs : List (Store → Store) := initWithListenerSections 7

/-- Concrete scenario start state: empty store, no listener. -/
def emptyStore : Store := { logs := [], listener := none, notes := [] }

/-! ## Helper lemmas -/

theorem positionOf_append_cons (p : Log → Bool) (pre post : List Log)
    (a : Log) (hpre : ∀ x ∈ pre, p x = false) (ha : p a = true) :
    positionOf p (pre ++ a :: post) = some pre.length := by
  induction pre with
  | nil => simp [positionOf, ha]
  | cons b rest ih =>
      have hb : p b = false := hpre b (by simp)
      have hrest : ∀ x ∈ rest, p x = false := fun x hx => hpre x (by simp [hx])
      simp [positionOf, hb, ih hrest]

theorem positionOf_none (p : Log → Bool) (logs : List Log)
    (h : ∀ x ∈ logs, p x = false) : positionOf p logs = none := by
  induction logs with
  | nil => rfl
  | cons b rest ih =>
      have hb : p b = false := h b (by simp)
      simp [positionOf, hb, ih (fun x hx => h x (by simp [hx]))]

theorem eraseIdx_append_cons (pre post : List Log) (a : Log) :
    (pre ++ a :: post).eraseIdx pre.length = pre ++ post := by
  induction pre with
  | nil => rfl
  | cons b rest ih => simp [List.eraseIdx, ih]

theorem to_string_foldl (logs : List Log) (acc : String) :
    logs.foldl (fun traceback lg => traceback ++ (lg.display ++ "\n")) acc
      = acc ++ renderSpec logs := by
  induction logs generalizing acc with
  | nil => simp [renderSpec]
  | cons a rest ih =>
      simp only [List.foldl, renderSpec]
      rw [ih, String.append_assoc]

theorem keep_iff_spec (min_level : Option LogLevel)
    (channels : Option (List String)) (entry : Log) :
    keep min_level channels entry = true ↔
      querySpecKeeps min_level channels entry := by
  cases min_level with
  | none =>
      cases channels with
      | none => simp [keep, querySpecKeeps]
      | some cs => simp [keep, querySpecKeeps, List.contains, List.elem_iff]
  | some m =>
      cases channels with
      | none => simp [keep, querySpecKeeps]
      | some cs => simp [keep, querySpecKeeps, List.contains, List.elem_iff]

theorem log_logs_eq (level : Option LogLevel) (channel : Option String)
    (message : String) (s : Store) :
    (log level channel message s).logs
      = s.logs ++ [builtLog level channel message] := by
  simp only [log, logNotifySec, logAppendSec]
  cases hl : s.listener <;> simp [hl]

theorem log_listener_eq (level : Option LogLevel) (channel : Option String)
    (message : String) (s : Store) :
    (log level channel message s).listener = s.listener := by
  simp only [log, logNotifySec, logAppendSec]
  cases hl : s.listener <;> simp [hl]

theorem log_notes_eq (level : Option LogLevel) (channel : Option String)
    (message : String) (s : Store) (t : Nat) (h : s.listener = some t) :
    (log level channel message s).notes
      = s.notes ++ [(t, builtLog level channel message)] := by
  simp only [log, logNotifySec, logAppendSec]
  simp [h, builtLog, Log.new]

theorem runLogs_notes_eq
    (inputs : List (Option LogLevel × Option String × String))
    (s : Store) (t : Nat) (h : s.listener = some t) :
    (runLogs inputs s).notes
      = s.notes ++ inputs.map (fun i => (t, builtLog i.1 i.2.1 i.2.2)) := by
  induction inputs generalizing s with
  | nil => simp [runLogs]
  | cons a rest ih =>
      have hstep : runLogs (a :: rest) s = runLogs rest (log a.1 a.2.1 a.2.2 s) := rfl
      rw [hstep, ih (log a.1 a.2.1 a.2.2 s) ((log_listener_eq a.1 a.2.1 a.2.2 s).trans h),
        log_notes_eq a.1 a.2.1 a.2.2 s t h]
      simp

/-! ## Claim theorems -/

/-- C2: `is_at_least self threshold` is true exactly when `self` is no less
severe than `threshold` under the total order Verbose < Info < Warn < Error
< Critical (captured by `LogLevel.rank`); in particular Critical is at
least every level, and Verbose is at least `x` only when `x` is Verbose. -/
theorem is_at_least_iff_rank_le (a b : LogLevel) :
    (a.is_at_least b = true ↔ b.rank ≤ a.rank) ∧
    LogLevel.Critical.is_at_least b = true ∧
    (LogLevel.Verbose.is_at_least b = true ↔ b = LogLevel.Verbose) := by
  cases a <;> cases b <;> decide

/-- C8: `from_str` is total; each of the five canonical names maps to its
level, and every other string falls back to `Info`. -/
theorem from_str_canonical_or_info (s : String)
    (h : s ∉ ["Verbose", "Info", "Warn", "Error", "Critical"]) :
    LogLevel.from_str "Verbose" = LogLevel.Verbose ∧
    LogLevel.from_str "Info" = LogLevel.Info ∧
    LogLevel.from_str "Warn" = LogLevel.Warn ∧
    LogLevel.from_str "Error" = LogLevel.Error ∧
    LogLevel.from_str "Critical" = LogLevel.Critical ∧
    LogLevel.from_str s = LogLevel.Info := by
  refine ⟨rfl, rfl, rfl, rfl, rfl, ?_⟩
  simp only [List.mem_cons, List.mem_singleton, not_or] at h
  obtain ⟨h1, h2, h3, h4, h5, -⟩ := h
  simp [LogLevel.from_str, h1, h2, h3, h4, h5]

theorem from_str_canonical_or_info_witness :
    LogLevel.from_str "Verbose" = LogLevel.Verbose ∧
    LogLevel.from_str "Info" = LogLevel.Info ∧
    LogLevel.from_str "Warn" = LogLevel.Warn ∧
    LogLevel.from_str "Error" = LogLevel.Error ∧
    LogLevel.from_str "Critical" = LogLevel.Critical ∧
    LogLevel.from_str "bogus" = LogLevel.Info :=
  from_str_canonical_or_info "bogus" (by decide)

/-- C5: `Traceback.to_string` is the concatenation, in order, of each
entry's canonical display form followed by a newline (`renderSpec`), and
the empty traceback renders to the empty string. -/
theorem to_string_renders_in_order (t : Traceback) :
    t.to_string = renderSpec t.logs ∧
    Traceback.to_string { logs := [] } = "" := by
  constructor
  · unfold Traceback.to_string
    rw [to_string_foldl]
    simp
  · rfl

/-- C1: `get_logs_traceback` returns, in original insertion order (it is a
sublist of the store), exactly the entries satisfying the spec predicate
`querySpecKeeps` (level at least the threshold when given, channel a member
of the channel list when given); an absent filter imposes no constraint,
and when both filters are given they are conjoined (AND). -/
theorem get_logs_traceback_spec (mi : Option LogLevel)
    (ch : Option (List String)) (stored : List Log) :
    ((get_logs_traceback mi ch stored).logs).Sublist stored ∧
    (∀ e, e ∈ (get_logs_traceback mi ch stored).logs ↔
      e ∈ stored ∧ querySpecKeeps mi ch e) ∧
    (get_logs_traceback none none stored).logs = stored ∧
    (∀ m, (get_logs_traceback (some m) none stored).logs
      = stored.filter (fun e => e.level.is_at_least m)) ∧
    (∀ cs, (get_logs_traceback none (some cs) stored).logs
      = stored.filter (fun e => cs.contains e.channel)) ∧
    (∀ m cs, (get_logs_traceback (some m) (some cs) stored).logs
      = stored.filter (fun e => e.level.is_at_least m && cs.contains e.channel)) := by
  refine ⟨List.filter_sublist stored, ?_, ?_, ?_, ?_, ?_⟩
  · intro e
    simp [get_logs_traceback, List.mem_filter, keep_iff_spec]
  · simp [get_logs_traceback, keep]
  · intro m
    show stored.filter (keep (some m) none) = _
    congr 1
    funext e
    simp [keep]
  · intro cs
    rfl
  · intro m cs
    rfl

/-- C10: the empty channel is an ordinary filterable value: for an entry
stored with the empty channel, a channel-filtered query returns it exactly
when `""` is a member of the channel list (and, when a minimum level is
also given, its level passes); when `""` is not in the list the entry is
excluded. -/
theorem empty_channel_is_filterable (m : LogLevel) (cs : List String)
    (stored : List Log) (e : Log) (hch : e.channel = "") (he : e ∈ stored) :
    (e ∈ (get_logs_traceback (some m) (some cs) stored).logs ↔
      e.level.is_at_least m = true ∧ "" ∈ cs) ∧
    (e ∈ (get_logs_traceback none (some cs) stored).logs ↔ "" ∈ cs) := by
  constructor
  · simp [get_logs_traceback, List.mem_filter, keep, he, hch,
      List.contains, List.elem_iff]
  · simp [get_logs_traceback, List.mem_filter, keep, he, hch,
      List.contains, List.elem_iff]

theorem empty_channel_is_filterable_witness :
    ((Log.new "" LogLevel.Warn "m")
        ∈ (get_logs_traceback (some LogLevel.Info) (some [""])
            [Log.new "" LogLevel.Warn "m"]).logs ↔
      (Log.new "" LogLevel.Warn "m").level.is_at_least LogLevel.Info = true
        ∧ "" ∈ [""]) ∧
    ((Log.new "" LogLevel.Warn "m")
        ∈ (get_logs_traceback none (some [""])
            [Log.new "" LogLevel.Warn "m"]).logs ↔ "" ∈ [""]) :=
  empty_channel_is_filterable LogLevel.Info [""]
    [Log.new "" LogLevel.Warn "m"] (Log.new "" LogLevel.Warn "m")
    rfl (by decide)

/-- C6: `log` defaults a missing level to `Info` and a missing channel to
the empty string, constructs the entry without validation, and appends it
at the end of the store's sequence, leaving the prior entries unchanged and
in order; it is a total function (never fails). -/
theorem log_defaults_and_appends (level : Option LogLevel)
    (channel : Option String) (message : String) (s : Store) :
    (log level channel message s).logs
      = s.logs ++ [Log.new (channel.getD "") (level.getD LogLevel.Info) message] ∧
    builtLog none none message = Log.new "" LogLevel.Info message := by
  exact ⟨log_logs_eq level channel message s, rfl⟩

/-- C3: `Log::remove` removes exactly the first value-equal entry, leaving
the other entries in their original order, and is fatal (modelled `none`,
for the `unwrap` panic) when no value-equal entry is present — in
particular a second removal of an already-removed entry with no other copy
present. -/
theorem remove_first_or_fatal (e : Log) (pre post other : List Log)
    (hpre : e ∉ pre) (hother : e ∉ other) :
    Log.remove e (pre ++ e :: post) = some (pre ++ post) ∧
    Log.remove e other = none := by
  have hp : ∀ x ∈ pre, decide (x = e) = false := by
    intro x hx
    simp only [decide_eq_false_iff_not]
    exact fun hxe => hpre (hxe ▸ hx)
  have ho : ∀ x ∈ other, decide (x = e) = false := by
    intro x hx
    simp only [decide_eq_false_iff_not]
    exact fun hxe => hother (hxe ▸ hx)
  constructor
  · unfold Log.remove
    rw [positionOf_append_cons _ pre post e hp (by simp)]
    simp [eraseIdx_append_cons]
  · unfold Log.remove
    rw [positionOf_none _ other ho]

theorem remove_first_or_fatal_witness :
    Log.remove (Log.new "c" LogLevel.Info "m")
      ([Log.new "d" LogLevel.Warn "n"] ++ Log.new "c" LogLevel.Info "m" ::
        [Log.new "c" LogLevel.Info "m"])
      = some ([Log.new "d" LogLevel.Warn "n"] ++ [Log.new "c" LogLevel.Info "m"]) ∧
    Log.remove (Log.new "c" LogLevel.Info "m") [Log.new "d" LogLevel.Warn "n"]
      = none :=
  remove_first_or_fatal (Log.new "c" LogLevel.Info "m")
    [Log.new "d" LogLevel.Warn "n"] [Log.new "c" LogLevel.Info "m"]
    [Log.new "d" LogLevel.Warn "n"] (by decide) (by decide)

/-- C4: with a listener installed, `log` invokes it exactly once,
synchronously (the notification step runs on the appended-to store, inside
the same call), with an entry whose fields equal the appended entry; the
append (first critical section) happens before the notification (second
critical section), and for a single-threaded sequence of `log` calls the
notifications occur in call order. -/
theorem log_notifies_observer (level : Option LogLevel)
    (channel : Option String) (message : String) (s : Store) (t : Nat)
    (inputs : List (Option LogLevel × Option String × String))
    (h : s.listener = some t) :
    (log level channel message s).notes
      = s.notes ++ [(t, builtLog level channel message)] ∧
    log level channel message s
      = logNotifySec level channel message (logAppendSec level channel message s) ∧
    (logAppendSec level channel message s).logs
      = s.logs ++ [builtLog level channel message] ∧
    (logAppendSec level channel message s).notes = s.notes ∧
    builtLog level channel message ∈ (log level channel message s).logs ∧
    (runLogs inputs s).notes
      = s.notes ++ inputs.map (fun i => (t, builtLog i.1 i.2.1 i.2.2)) := by
  refine ⟨log_notes_eq level channel message s t h, rfl, rfl, rfl, ?_,
    runLogs_notes_eq inputs s t h⟩
  rw [log_logs_eq]
  simp

theorem log_notifies_observer_witness :
    (log (some LogLevel.Warn) (some "a") "x"
        { logs := [], listener := some 3, notes := [] }).notes
      = [(3, Log.new "a" LogLevel.Warn "x")] ∧
    (runLogs [(some LogLevel.Warn, some "a", "x"), (none, none, "y")]
        { logs := [], listener := some 3, notes := [] }).notes
      = [(3, Log.new "a" LogLevel.Warn "x"), (3, Log.new "" LogLevel.Info "y")] := by
  have h := log_notifies_observer (some LogLevel.Warn) (some "a") "x"
    { logs := [], listener := some 3, notes := [] } 3
    [(some LogLevel.Warn, some "a", "x"), (none, none, "y")] rfl
  exact ⟨h.1.trans (by decide), h.2.2.2.2.2.trans (by decide)⟩

/-- C7: `init` clears the entry sequence and the observer slot;
`init_with_listener` clears the entry sequence and installs the given
observer; after either call, the unfiltered traceback renders to the empty
string regardless of prior state. -/
theorem init_clears_store (s : Store) (t : Nat) :
    (init s).logs = [] ∧ (init s).listener = none ∧
    (init_with_listener t s).logs = [] ∧
    (init_with_listener t s).listener = some t ∧
    (get_logs_traceback none none (init s).logs).to_string = "" ∧
    (get_logs_traceback none none (init_with_listener t s).logs).to_string = "" :=
  ⟨rfl, rfl, rfl, rfl, rfl, rfl⟩

/-- C9 counterexample: the entry sequence and the observer slot are NOT
guarded jointly by a single exclusive lock — the code keeps them behind two
separate spin mutexes (`LOGS`, `LOG_LISTENER`), and `log` acquires them one
after the other.  Were the operations mutually exclusive as wholes (one
joint lock), every concurrent outcome of one `log` and one
`init_with_listener` would equal one of the two serial outcomes; the
schedule append / clear / install / notify yields an outcome equal to
neither. -/
theorem joint_lock_refuted :
    runSched [true, false, false, true] logThreadSecs initThreadSecs emptyStore
      ≠ runAll (logThreadSecs ++ initThreadSecs) emptyStore ∧
    runSched [true, false, false, true] logThreadSecs initThreadSecs emptyStore
      ≠ runAll (initThreadSecs ++ logThreadSecs) emptyStore := by
  constructor <;> decide

/-- C9 amended: the entry sequence and the observer slot are each guarded
by their own exclusive lock, so each critical section is individually
atomic and the sequence is never observed partially updated (in the
two-thread scenario every reachable logs value is `[]` or the singleton
appended entry); but whole operations are not mutually exclusive: the
interleaving append / clear / install / notify leaves an empty store with
the freshly installed listener notified of the removed entry, an outcome
produced by neither serial order. -/
theorem two_locks_sections_atomic :
    runSched [true, false, false, true] logThreadSecs initThreadSecs emptyStore
      = { logs := [], listener := some 7,
          notes := [(7, Log.new "c" LogLevel.Info "m")] } ∧
    runAll (logThreadSecs ++ initThreadSecs) emptyStore
      = { logs := [], listener := some 7, notes := [] } ∧
    runAll (initThreadSecs ++ logThreadSecs) emptyStore
      = { logs := [Log.new "c" LogLevel.Info "m"], listener := some 7,
          notes := [(7, Log.new "c" LogLevel.Info "m")] } ∧
    ((allScheds 4).all (fun sc =>
      decide ((runSched sc logThreadSecs initThreadSecs emptyStore).logs = [])
        || decide ((runSched sc logThreadSecs initThreadSecs emptyStore).logs
            = [Log.new "c" LogLevel.Info "m"]))) = true := by
  refine ⟨by decide, by decide, by decide, by decide⟩
